import Mathlib

/-!
Shallow embedding of `icalcache.go` from wansing/go-ical-cache.

The program is a caching client for a remote iCalendar feed.  Its core is
the method `Cache.Get`, which runs a staleness gate, an HTTP HEAD probe
(reading the `Last-Modified` header), a conditional HTTP GET (whose body is
simultaneously hashed with FNV and decoded by the external go-ical
decoder), a fingerprint/freshness update, and an event-extraction loop
over the decoded entries.

Modelling choices:
* Instants are `Int` (Unix seconds); `time.Duration` values are `Int`
  seconds (the source only compares and assigns them, so the unit change
  is harmless).  The several `time.Now()` calls inside one `Get` call are
  modelled as the single instant `Env.now`.
* The network and the HTTP library are an explicit environment `Env`:
  whether `http.NewRequest` accepts the URL, the outcome of the HEAD
  probe (transport error, or a response whose `Last-Modified` header is
  either absent/unparsable or parses to a given Unix second), and the
  outcome of the GET (transport error, or a body).
* A fetched body is abstracted by its FNV fingerprint (an opaque
  `String`, as the Go code stores the base64 of the hash) together with
  the outcome of the external decoder on it: `io.EOF` (no calendars),
  a decode error, or a list of entries.  Hashing and iCalendar parsing
  are external collaborators of the program and are not re-implemented.
* A decoded entry exposes the typed property accessors the code uses
  (`Props.Text`, `Props.URI`, `Props.RecurrenceRule`, the DTSTART/DTEND
  property with its TZID parameter and value type), each of which may
  fail, exactly as in go-ical.  The runtime zone database
  (`time.LoadLocation`) is a predicate `zoneOK : String → Bool`, and a
  date-time property carries `parseIn : String → Except String Int`,
  the instant obtained by parsing its value in a given named location.
* The mutation of the shared HTTP client's TLS configuration is global
  state outside the `Cache` value and is not modelled.
* `Get` additionally returns the list of network requests it issued, so
  that "no full fetch occurs" and "no network I/O" are statable.
-/

namespace ICalCache

/-- A date-time property (DTSTART/DTEND) of a decoded entry: its TZID
parameter (none when absent or empty), whether its value type is DATE
(versus DATE-TIME), and the instant obtained by parsing its value in a
given named location (which may fail on malformed text). -/
structure DTProp where
  tzid : Option String
  valueIsDate : Bool
  parseIn : String → Except String Int

/-- One decoded calendar entry, exposing the typed property accessors the
extraction loop uses.  `Except` mirrors the `(value, error)` returns of
go-ical; an absent optional text property yields `Except.ok ""`, an absent
URL or RRULE yields `Except.ok none`. -/
structure Entry where
  uid : Except String String
  summary : Except String String
  description : Except String String
  url : Except String (Option String)
  dtStart : Option DTProp
  dtEnd : Option DTProp
  rrule : Except String (Option String)

/-- The `Event` record built by extraction (struct `Event` in the source). -/
structure Event where
  AllDay : Bool
  Start : Int
  End : Int
  RecurrenceRule : String
  UID : String
  URL : String
  Summary : String
  Description : String
deriving DecidableEq, Repr

/-- The `Cache` struct: configuration fields plus the mutable store
(`events`, `lastChecked`, `lastHashSum`, `lastModified`). -/
structure Cache where
  URL : String
  Username : String
  Password : String
  SkipTLSVerify : Bool
  Interval : Int
  events : List Event
  lastChecked : Int
  lastHashSum : String
  lastModified : Int
deriving DecidableEq, Repr

/-- Outcome of decoding a fetched body with the external decoder:
`io.EOF` (no calendars in the file), a decode error, or a calendar with
its list of entries. -/
inductive Decoded where
  | eof
  | fail
  | cal (entries : List Entry)

/-- A fetched response body, abstracted by its FNV fingerprint and its
decode outcome (hash and decode read the same bytes via `io.TeeReader`). -/
structure Body where
  hashSum : String
  decoded : Decoded

/-- The environment of one `Get` call: the current time, whether
`http.NewRequest` accepts the configured URL, the HEAD probe outcome
(`none` = transport error; `some lm` = response whose parsed
`Last-Modified` is `lm`, with `lm = none` when the header is absent or
unparsable), and the GET outcome (`none` = transport error). -/
structure Env where
  now : Int
  urlParses : Bool
  headResult : Option (Option Int)
  getResult : Option Body

/-- A network request issued by `Get`. -/
inductive ReqKind where
  | headReq
  | getReq
deriving DecidableEq, Repr

/-- The error cases `Get` can report. -/
inductive GetErr where
  | headRequest
  | headTransport
  | getTransport
  | decode
  | extraction (msg : String)
deriving DecidableEq, Repr

/-- The result of one `Get` call: the cache state after the call, the
returned event list, the returned freshness stamp, the returned error,
and the network requests issued. -/
structure GetResult where
  cache : Cache
  events : List Event
  lastModified : Int
  error : Option GetErr
  trace : List ReqKind

/-- `fmt.Errorf("ctx: %w", err)` on the error branch of an accessor. -/
def wrapErr (ctx : String) : Except String α → Except String α
  | Except.error e => Except.error (ctx ++ (": ") ++ e)
  | Except.ok a => Except.ok a

/-- The TZID workaround loop body: if the property names a TZID that
`time.LoadLocation` cannot resolve, overwrite the TZID parameter with the
default location's name (source lines 167-179). -/
def resolveTZ (zoneOK : String → Bool) (defaultLocation : String) (p : DTProp) : DTProp :=
  match p.tzid with
  | some tzid => if zoneOK tzid then p else { p with tzid := some defaultLocation }
  | none => p

/-- go-ical's `Prop.DateTime(loc)`: with a TZID parameter, load that
location (error if the zone database cannot) and parse the value in it;
without one, parse in the supplied location. -/
def propDateTime (zoneOK : String → Bool) (loc : String) (p : DTProp) : Except String Int :=
  match p.tzid with
  | some tzid =>
    if zoneOK tzid then p.parseIn tzid
    else Except.error ("unknown timezone: " ++ tzid)
  | none => p.parseIn loc

/-- go-ical's `Event.DateTimeStart/End(loc)`: the zero instant when the
property is absent, otherwise `Prop.DateTime(loc)`. -/
def eventDateTime (zoneOK : String → Bool) (loc : String) : Option DTProp → Except String Int
  | none => Except.ok 0
  | some p => propDateTime zoneOK loc p

/-- The body of the extraction loop (source lines 149-219): required and
optional property extraction, the TZID workaround on DTSTART/DTEND, the
all-day classification by value type, start/end instants, and the
recurrence rule as opaque text. -/
def extractEvent (zoneOK : String → Bool) (defaultLocation : String) (event : Entry) :
    Except String Event := do
  let uid ← wrapErr ("getting uid") event.uid
  let summary ← wrapErr ("getting summary") event.summary
  let description ← wrapErr ("getting description") event.description
  let url ← wrapErr ("getting url") event.url
  let startProp := event.dtStart.map (resolveTZ zoneOK defaultLocation)
  let endProp := event.dtEnd.map (resolveTZ zoneOK defaultLocation)
  let allDay : Bool :=
    match startProp with
    | some p => p.valueIsDate
    | none => false
  let start ← wrapErr ("getting start time") (eventDateTime zoneOK defaultLocation startProp)
  let endTime ← wrapErr ("getting end time") (eventDateTime zoneOK defaultLocation endProp)
  let rrule ← wrapErr ("getting end recurrence rule") event.rrule
  Except.ok
    { AllDay := allDay
      Start := start
      End := endTime
      RecurrenceRule := rrule.getD ("")
      UID := uid
      URL := url.getD ("")
      Summary := summary
      Description := description }

/-- The extraction loop as it mutates `cache.events`: the store was
truncated to `cache.events[:0]` (the `acc := []` initial call) and each
successful extraction is appended in place; on the first failure the loop
stops, leaving the successfully extracted prefix in the store. -/
def extractLoop (zoneOK : String → Bool) (defaultLocation : String)
    (acc : List Event) : List Entry → List Event × Option String
  | [] => (acc, none)
  | e :: rest =>
    match extractEvent zoneOK defaultLocation e with
    | Except.ok ev => extractLoop zoneOK defaultLocation (acc ++ [ev]) rest
    | Except.error msg => (acc, some msg)

/-- Everything after the HEAD probe decided a full fetch is needed
(source lines 114-222): the GET, hash-and-decode, the fingerprint /
freshness-stamp update, and the extraction loop.  `available` is
`httpLastModifiedWasAvailable`. -/
def afterProbe (cache : Cache) (zoneOK : String → Bool) (defaultLocation : String)
    (env : Env) (available : Bool) : GetResult :=
  match env.getResult with
  | none =>
    ⟨cache, cache.events, cache.lastModified, some GetErr.getTransport,
      [ReqKind.headReq, ReqKind.getReq]⟩
  | some body =>
    match body.decoded with
    | Decoded.eof =>
      ⟨{ cache with events := [] }, [], cache.lastModified, none,
        [ReqKind.headReq, ReqKind.getReq]⟩
    | Decoded.fail =>
      ⟨cache, cache.events, cache.lastModified, some GetErr.decode,
        [ReqKind.headReq, ReqKind.getReq]⟩
    | Decoded.cal entries =>
      let cache1 :=
        if available = false ∧ body.hashSum ≠ cache.lastHashSum then
          { cache with lastModified := env.now, lastHashSum := body.hashSum }
        else
          { cache with lastHashSum := body.hashSum }
      match extractLoop zoneOK defaultLocation [] entries with
      | (evs, some msg) =>
        ⟨{ cache1 with events := evs }, [], 0, some (GetErr.extraction msg),
          [ReqKind.headReq, ReqKind.getReq]⟩
      | (evs, none) =>
        ⟨{ cache1 with events := evs }, evs, cache1.lastModified, none,
          [ReqKind.headReq, ReqKind.getReq]⟩

/-- `Cache.Get` (source lines 69-223): the disabled-cache check, the
interval clamp, the staleness gate, the `lastChecked` stamp, the HEAD
probe and its `Last-Modified` short-circuit, then `afterProbe`. -/
def Cache.Get (cache : Cache) (zoneOK : String → Bool) (defaultLocation : String)
    (env : Env) : GetResult :=
  if cache.URL = "" then
    ⟨cache, [], 0, none, []⟩
  else
    let cache2 := if cache.Interval < 30 then { cache with Interval := 120 } else cache
    if env.now - cache2.lastChecked < cache2.Interval then
      ⟨cache2, cache2.events, cache2.lastModified, none, []⟩
    else
      let cache3 := { cache2 with lastChecked := env.now }
      if env.urlParses = false then
        ⟨cache3, cache3.events, cache3.lastModified, some GetErr.headRequest, []⟩
      else
        match env.headResult with
        | none =>
          ⟨cache3, cache3.events, cache3.lastModified, some GetErr.headTransport,
            [ReqKind.headReq]⟩
        | some (some t) =>
          if t ≤ cache3.lastModified then
            ⟨cache3, cache3.events, cache3.lastModified, none, [ReqKind.headReq]⟩
          else
            afterProbe { cache3 with lastModified := t } zoneOK defaultLocation env true
        | some none =>
          afterProbe cache3 zoneOK defaultLocation env false

/-- The "continue to the full fetch" condition of the probe: the header is
absent/unparsable, or its parsed value is strictly newer than the stored
freshness stamp. -/
def contOK (stored : Int) : Option Int → Bool
  | none => true
  | some t => stored < t

/-- A concrete event standing for a previously cached snapshot. -/
def evOld : Event := ⟨false, 1, 1, "", "old", "", "o", ""⟩

/-- The event extracted from `entryOK`. -/
def evA : Event := ⟨false, 0, 0, "", "a", "", "s", ""⟩

/-- A concrete entry whose every accessor succeeds. -/
def entryOK : Entry :=
  ⟨Except.ok ("a"), Except.ok ("s"), Except.ok (""), Except.ok none, none, none,
    Except.ok none⟩

/-- A concrete entry whose UID accessor fails. -/
def entryBad : Entry :=
  ⟨Except.error ("missing"), Except.ok ("s"), Except.ok (""), Except.ok none, none, none,
    Except.ok none⟩

/-- A concrete date-time property naming the unresolvable TZID `X`. -/
def p8 : DTProp :=
  ⟨some ("X"), false, fun loc => Except.ok (if loc = "UTC" then 42 else 0)⟩

/-- A concrete entry whose DTSTART names the unresolvable TZID `X`. -/
def e8 : Entry :=
  ⟨Except.ok ("a"), Except.ok ("s"), Except.ok (""), Except.ok none, some p8, none,
    Except.ok none⟩

/-- `afterProbe` never touches `Interval` or `lastChecked`. -/
theorem afterProbe_frame (c : Cache) (z : String → Bool) (d : String) (e : Env) (a : Bool) :
    (afterProbe c z d e a).cache.Interval = c.Interval ∧
    (afterProbe c z d e a).cache.lastChecked = c.lastChecked := by
  unfold afterProbe
  rcases e with ⟨now, up, hr, gr⟩
  rcases gr with _ | ⟨hs, dec⟩
  · exact ⟨rfl, rfl⟩
  · rcases dec with _ | _ | entries
    · exact ⟨rfl, rfl⟩
    · exact ⟨rfl, rfl⟩
    · simp only [Env.getResult]
      by_cases hc : a = false ∧ hs ≠ c.lastHashSum
      · rcases hl : extractLoop z d [] entries with ⟨evs, _ | m⟩ <;> simp [hc, hl]
      · rcases hl : extractLoop z d [] entries with ⟨evs, _ | m⟩ <;> simp [hc, hl]

/-- C10: a call to `Get` with a nonempty feed URL and a configured
interval below 30 seconds persistently overwrites `Interval` with
2 minutes; and whenever `Interval` is at least 30 seconds it is left
unchanged by every call, so the invariant `Interval ≥ 30` holds after any
such call and is preserved by all later calls. -/
theorem c10_interval_clamp (cache : Cache) (zoneOK : String → Bool) (d : String) (env : Env) :
    (cache.URL ≠ "" → cache.Interval < 30 →
      (Cache.Get cache zoneOK d env).cache.Interval = 120) ∧
    (30 ≤ cache.Interval →
      (Cache.Get cache zoneOK d env).cache.Interval = cache.Interval) := by
  have main : ∀ hurl : cache.URL ≠ "",
      (Cache.Get cache zoneOK d env).cache.Interval =
        if cache.Interval < 30 then 120 else cache.Interval := by
    intro hurl
    unfold Cache.Get
    by_cases hI : cache.Interval < 30 <;>
      simp only [hurl, if_neg, hI, if_true, if_false, ite_true, ite_false] <;>
      · split_ifs <;>
        first
          | rfl
          | (rcases hr : env.headResult with _ | (_ | t)) <;>
            simp only [hr] <;>
            first
              | rfl
              | (split_ifs <;> first | rfl | exact (afterProbe_frame _ _ _ _ _).1)
              | exact (afterProbe_frame _ _ _ _ _).1
  constructor
  · intro hurl hI
    rw [main hurl, if_pos hI]
  · intro hge
    by_cases hurl : cache.URL = ""
    · unfold Cache.Get
      simp [hurl]
    · rw [main hurl, if_neg (by omega)]

/-- C10 witness: a concrete call with URL set and a 10-second interval
stores 120, and a later call on the clamped state keeps 120. -/
theorem c10_witness :
    ((⟨"u", "", "", false, 10, [], 0, "", 0⟩ : Cache).URL ≠ "" ∧
      (⟨"u", "", "", false, 10, [], 0, "", 0⟩ : Cache).Interval < 30 ∧
      (Cache.Get ⟨"u", "", "", false, 10, [], 0, "", 0⟩ (fun _ => true) ("UTC")
        ⟨1000, true, some none, none⟩).cache.Interval = 120) ∧
    (30 ≤ (⟨"u", "", "", false, 120, [], 0, "", 0⟩ : Cache).Interval ∧
      (Cache.Get ⟨"u", "", "", false, 120, [], 0, "", 0⟩ (fun _ => true) ("UTC")
        ⟨1000, true, some none, none⟩).cache.Interval = 120) :=
  ⟨⟨by decide, by decide,
    (c10_interval_clamp ⟨"u", "", "", false, 10, [], 0, "", 0⟩ (fun _ => true) ("UTC")
      ⟨1000, true, some none, none⟩).1 (by decide) (by decide)⟩,
   ⟨by decide,
    (c10_interval_clamp ⟨"u", "", "", false, 120, [], 0, "", 0⟩ (fun _ => true) ("UTC")
      ⟨1000, true, some none, none⟩).2 (by decide)⟩⟩

/-- C6: whenever a call passes the staleness gate (nonempty URL, at least
the effective interval elapsed since `lastChecked`), the stored
`lastChecked` equals the call's current time in every outcome — the stamp
is written before any network request, so failed attempts also reset the
staleness window. -/
theorem c6_lastChecked_stamped (cache : Cache) (zoneOK : String → Bool) (d : String) (env : Env)
    (hurl : cache.URL ≠ "")
    (hgate : (if cache.Interval < 30 then (120 : Int) else cache.Interval) ≤
      env.now - cache.lastChecked) :
    (Cache.Get cache zoneOK d env).cache.lastChecked = env.now := by
  unfold Cache.Get
  by_cases hI : cache.Interval < 30 <;>
    simp only [hurl, hI, if_neg, if_true, if_false, ite_true, ite_false] <;>
    · rw [if_neg (by simp at hgate ⊢; omega)]
      split_ifs <;>
        first
          | rfl
          | (rcases hr : env.headResult with _ | (_ | t)) <;>
            simp only [hr] <;>
            first
              | rfl
              | (split_ifs <;> first | rfl | exact (afterProbe_frame _ _ _ _ _).2)
              | exact (afterProbe_frame _ _ _ _ _).2

/-- C6 witness: a concrete failed attempt (transport error on the probe)
still stamps `lastChecked` with the current time. -/
theorem c6_witness :
    ((⟨"u", "", "", false, 60, [], 0, "", 0⟩ : Cache).URL ≠ "" ∧
      (if (⟨"u", "", "", false, 60, [], 0, "", 0⟩ : Cache).Interval < 30 then (120 : Int)
        else (⟨"u", "", "", false, 60, [], 0, "", 0⟩ : Cache).Interval) ≤
        (⟨1000, true, none, none⟩ : Env).now -
          (⟨"u", "", "", false, 60, [], 0, "", 0⟩ : Cache).lastChecked) ∧
    (Cache.Get ⟨"u", "", "", false, 60, [], 0, "", 0⟩ (fun _ => true) ("UTC")
      ⟨1000, true, none, none⟩).cache.lastChecked = 1000 :=
  ⟨⟨by decide, by decide⟩,
    c6_lastChecked_stamped ⟨"u", "", "", false, 60, [], 0, "", 0⟩ (fun _ => true) ("UTC")
      ⟨1000, true, none, none⟩ (by decide) (by decide)⟩

/-- C5: a call with a nonempty URL made less than the staleness interval
after `lastChecked` issues no network request, leaves every mutable store
field unchanged, and returns the stored events and freshness stamp with no
error; a second call still within the interval returns identical output. -/
theorem c5_fresh_cache_hit (cache : Cache) (zoneOK : String → Bool) (d : String)
    (env env2 : Env)
    (hurl : cache.URL ≠ "")
    (h1 : env.now - cache.lastChecked < cache.Interval)
    (h2 : env2.now - cache.lastChecked < cache.Interval) :
    (Cache.Get cache zoneOK d env).trace = [] ∧
    (Cache.Get cache zoneOK d env).events = cache.events ∧
    (Cache.Get cache zoneOK d env).lastModified = cache.lastModified ∧
    (Cache.Get cache zoneOK d env).error = none ∧
    (Cache.Get cache zoneOK d env).cache.events = cache.events ∧
    (Cache.Get cache zoneOK d env).cache.lastChecked = cache.lastChecked ∧
    (Cache.Get cache zoneOK d env).cache.lastHashSum = cache.lastHashSum ∧
    (Cache.Get cache zoneOK d env).cache.lastModified = cache.lastModified ∧
    (Cache.Get ((Cache.Get cache zoneOK d env).cache) zoneOK d env2).trace = [] ∧
    (Cache.Get ((Cache.Get cache zoneOK d env).cache) zoneOK d env2).events =
      (Cache.Get cache zoneOK d env).events ∧
    (Cache.Get ((Cache.Get cache zoneOK d env).cache) zoneOK d env2).lastModified =
      (Cache.Get cache zoneOK d env).lastModified ∧
    (Cache.Get ((Cache.Get cache zoneOK d env).cache) zoneOK d env2).error = none := by
  by_cases hI : cache.Interval < 30
  · have h1' : env.now - cache.lastChecked < 120 := by omega
    have h2' : env2.now - cache.lastChecked < 120 := by omega
    simp [Cache.Get, hurl, hI, h1', h2']
  · simp [Cache.Get, hurl, hI, h1, h2]

/-- C5 witness: two concrete calls 10 seconds apart with a 60-second
interval both return the stored snapshot untouched. -/
theorem c5_witness :
    ((⟨"u", "", "", false, 60, [], 100, "h", 7⟩ : Cache).URL ≠ "" ∧
      (⟨110, true, none, none⟩ : Env).now -
        (⟨"u", "", "", false, 60, [], 100, "h", 7⟩ : Cache).lastChecked <
        (⟨"u", "", "", false, 60, [], 100, "h", 7⟩ : Cache).Interval ∧
      (⟨120, true, none, none⟩ : Env).now -
        (⟨"u", "", "", false, 60, [], 100, "h", 7⟩ : Cache).lastChecked <
        (⟨"u", "", "", false, 60, [], 100, "h", 7⟩ : Cache).Interval) ∧
    (Cache.Get ⟨"u", "", "", false, 60, [], 100, "h", 7⟩ (fun _ => true) ("UTC")
        ⟨110, true, none, none⟩).trace = [] ∧
    (Cache.Get ⟨"u", "", "", false, 60, [], 100, "h", 7⟩ (fun _ => true) ("UTC")
        ⟨110, true, none, none⟩).lastModified = 7 :=
  ⟨⟨by decide, by decide, by decide⟩, by
    have h := c5_fresh_cache_hit ⟨"u", "", "", false, 60, [], 100, "h", 7⟩ (fun _ => true)
      ("UTC") ⟨110, true, none, none⟩ ⟨120, true, none, none⟩ (by decide) (by decide) (by decide)
    exact ⟨h.1, h.2.2.1⟩⟩

/-- C4: when the probe carries a parseable `Last-Modified` no newer than
the stored freshness stamp, no full fetch is issued (the trace is the
probe alone) and the stored events and stamp are returned unchanged with
no error, the store keeping both. -/
theorem c4_probe_short_circuit (cache : Cache) (zoneOK : String → Bool) (d : String)
    (env : Env) (t : Int)
    (hurl : cache.URL ≠ "")
    (hgate : (if cache.Interval < 30 then (120 : Int) else cache.Interval) ≤
      env.now - cache.lastChecked)
    (hup : env.urlParses = true)
    (hhead : env.headResult = some (some t))
    (ht : t ≤ cache.lastModified) :
    (Cache.Get cache zoneOK d env).trace = [ReqKind.headReq] ∧
    (Cache.Get cache zoneOK d env).events = cache.events ∧
    (Cache.Get cache zoneOK d env).lastModified = cache.lastModified ∧
    (Cache.Get cache zoneOK d env).error = none ∧
    (Cache.Get cache zoneOK d env).cache.events = cache.events ∧
    (Cache.Get cache zoneOK d env).cache.lastModified = cache.lastModified := by
  by_cases hI : cache.Interval < 30
  · simp only [hI, ite_true] at hgate
    have hg : ¬ env.now - cache.lastChecked < (120 : Int) := not_lt.mpr hgate
    simp [Cache.Get, hurl, hI, hg, hup, hhead, ht]
  · simp only [hI, ite_false] at hgate
    have hg : ¬ env.now - cache.lastChecked < cache.Interval := not_lt.mpr hgate
    simp [Cache.Get, hurl, hI, hg, hup, hhead, ht]

/-- C4 witness: a probe reporting `Last-Modified = 5` against a stored
stamp of 7 short-circuits: probe only, stored snapshot returned. -/
theorem c4_witness :
    ((⟨"u", "", "", false, 60, [], 0, "h", 7⟩ : Cache).URL ≠ "" ∧
      (if (⟨"u", "", "", false, 60, [], 0, "h", 7⟩ : Cache).Interval < 30 then (120 : Int)
        else (⟨"u", "", "", false, 60, [], 0, "h", 7⟩ : Cache).Interval) ≤
        (⟨1000, true, some (some 5), none⟩ : Env).now -
          (⟨"u", "", "", false, 60, [], 0, "h", 7⟩ : Cache).lastChecked ∧
      (⟨1000, true, some (some 5), none⟩ : Env).urlParses = true ∧
      (⟨1000, true, some (some 5), none⟩ : Env).headResult = some (some 5) ∧
      (5 : Int) ≤ (⟨"u", "", "", false, 60, [], 0, "h", 7⟩ : Cache).lastModified) ∧
    (Cache.Get ⟨"u", "", "", false, 60, [], 0, "h", 7⟩ (fun _ => true) ("UTC")
        ⟨1000, true, some (some 5), none⟩).trace = [ReqKind.headReq] ∧
    (Cache.Get ⟨"u", "", "", false, 60, [], 0, "h", 7⟩ (fun _ => true) ("UTC")
        ⟨1000, true, some (some 5), none⟩).lastModified = 7 :=
  ⟨⟨by decide, by decide, by decide, by decide, by decide⟩, by
    have h := c4_probe_short_circuit ⟨"u", "", "", false, 60, [], 0, "h", 7⟩ (fun _ => true)
      ("UTC") ⟨1000, true, some (some 5), none⟩ 5 (by decide) (by decide) (by decide)
      (by decide) (by decide)
    exact ⟨h.1, h.2.2.1⟩⟩

/-- Routing lemma: a call that passes the staleness gate and whose probe
does not short-circuit runs `afterProbe` on the stamped state, with the
tentative freshness stamp adopted when the header parsed. -/
theorem Get_eq_afterProbe (cache : Cache) (zoneOK : String → Bool) (d : String) (env : Env)
    (lm : Option Int)
    (hurl : cache.URL ≠ "")
    (hgate : (if cache.Interval < 30 then (120 : Int) else cache.Interval) ≤
      env.now - cache.lastChecked)
    (hup : env.urlParses = true)
    (hhead : env.headResult = some lm)
    (hcont : contOK cache.lastModified lm = true) :
    Cache.Get cache zoneOK d env =
      afterProbe
        { cache with
            Interval := if cache.Interval < 30 then 120 else cache.Interval
            lastChecked := env.now
            lastModified := lm.getD cache.lastModified }
        zoneOK d env lm.isSome := by
  have hg := not_lt.mpr hgate
  rcases lm with _ | t
  · by_cases hI : cache.Interval < 30 <;>
      simp only [hI, ite_true, ite_false] at hg ⊢ <;>
      simp [Cache.Get, hurl, hI, hg, hup, hhead]
  · simp only [contOK, decide_eq_true_eq] at hcont
    have ht : ¬ t ≤ cache.lastModified := not_le.mpr hcont
    by_cases hI : cache.Interval < 30 <;>
      simp only [hI, ite_true, ite_false] at hg ⊢ <;>
      simp [Cache.Get, hurl, hI, hg, hup, hhead, ht]

/-- The full fetch fails with a transport error: previous snapshot
returned alongside the error, nothing further mutated. -/
theorem afterProbe_transport (c : Cache) (z : String → Bool) (d : String) (e : Env) (a : Bool)
    (hget : e.getResult = none) :
    afterProbe c z d e a =
      ⟨c, c.events, c.lastModified, some GetErr.getTransport,
        [ReqKind.headReq, ReqKind.getReq]⟩ := by
  unfold afterProbe
  rw [hget]

/-- The body fails to decode: previous snapshot returned alongside the
error, nothing further mutated. -/
theorem afterProbe_decodeFail (c : Cache) (z : String → Bool) (d : String) (e : Env) (a : Bool)
    (body : Body) (hget : e.getResult = some body) (hdec : body.decoded = Decoded.fail) :
    afterProbe c z d e a =
      ⟨c, c.events, c.lastModified, some GetErr.decode,
        [ReqKind.headReq, ReqKind.getReq]⟩ := by
  unfold afterProbe
  rw [hget]
  simp [hdec]

/-- The body decodes to `io.EOF` (no calendars): the stored events are
cleared and the call returns before the fingerprint step. -/
theorem afterProbe_eof (c : Cache) (z : String → Bool) (d : String) (e : Env) (a : Bool)
    (body : Body) (hget : e.getResult = some body) (hdec : body.decoded = Decoded.eof) :
    (afterProbe c z d e a).cache.events = [] ∧
    (afterProbe c z d e a).events = [] ∧
    (afterProbe c z d e a).error = none ∧
    (afterProbe c z d e a).lastModified = c.lastModified ∧
    (afterProbe c z d e a).cache.lastModified = c.lastModified ∧
    (afterProbe c z d e a).cache.lastHashSum = c.lastHashSum := by
  unfold afterProbe
  rw [hget]
  simp [hdec]

/-- Full characterization of the decode-success branch: fingerprint and
freshness-stamp update, then the extraction loop, whose failure empties
the returned list and leaves the extracted prefix in the store. -/
theorem afterProbe_cal (c : Cache) (z : String → Bool) (d : String) (e : Env) (a : Bool)
    (body : Body) (entries : List Entry)
    (hget : e.getResult = some body) (hdec : body.decoded = Decoded.cal entries) :
    (afterProbe c z d e a).cache.events = (extractLoop z d [] entries).1 ∧
    (afterProbe c z d e a).cache.lastHashSum = body.hashSum ∧
    (afterProbe c z d e a).cache.lastModified =
      (if a = false ∧ body.hashSum ≠ c.lastHashSum then e.now else c.lastModified) ∧
    (afterProbe c z d e a).trace = [ReqKind.headReq, ReqKind.getReq] ∧
    ((extractLoop z d [] entries).2 = none →
      (afterProbe c z d e a).events = (extractLoop z d [] entries).1 ∧
      (afterProbe c z d e a).error = none ∧
      (afterProbe c z d e a).lastModified = (afterProbe c z d e a).cache.lastModified) ∧
    (∀ msg, (extractLoop z d [] entries).2 = some msg →
      (afterProbe c z d e a).events = [] ∧
      (afterProbe c z d e a).lastModified = 0 ∧
      (afterProbe c z d e a).error = some (GetErr.extraction msg)) := by
  unfold afterProbe
  rw [hget]
  simp only [hdec]
  rcases hl : extractLoop z d [] entries with ⟨evs, msg⟩
  rcases msg with _ | m <;>
    by_cases hc : a = false ∧ body.hashSum ≠ c.lastHashSum <;>
      simp [hc, hl]

/-- C7: a full fetch whose body has no calendars (`io.EOF`) or decodes to
a calendar with zero entries clears the stored event sequence to empty and
returns the empty sequence with no error. -/
theorem c7_zero_entries (cache : Cache) (zoneOK : String → Bool) (d : String) (env : Env)
    (lm : Option Int) (body : Body)
    (hurl : cache.URL ≠ "")
    (hgate : (if cache.Interval < 30 then (120 : Int) else cache.Interval) ≤
      env.now - cache.lastChecked)
    (hup : env.urlParses = true)
    (hhead : env.headResult = some lm)
    (hcont : contOK cache.lastModified lm = true)
    (hget : env.getResult = some body)
    (hdec : body.decoded = Decoded.eof ∨ body.decoded = Decoded.cal []) :
    (Cache.Get cache zoneOK d env).cache.events = [] ∧
    (Cache.Get cache zoneOK d env).events = [] ∧
    (Cache.Get cache zoneOK d env).error = none := by
  rw [Get_eq_afterProbe cache zoneOK d env lm hurl hgate hup hhead hcont]
  rcases hdec with hdec | hdec
  · have h := afterProbe_eof
      { cache with
          Interval := if cache.Interval < 30 then 120 else cache.Interval
          lastChecked := env.now
          lastModified := lm.getD cache.lastModified }
      zoneOK d env lm.isSome body hget hdec
    exact ⟨h.1, h.2.1, h.2.2.1⟩
  · have h := afterProbe_cal
      { cache with
          Interval := if cache.Interval < 30 then 120 else cache.Interval
          lastChecked := env.now
          lastModified := lm.getD cache.lastModified }
      zoneOK d env lm.isSome body [] hget hdec
    have h2 := h.2.2.2.2.1 rfl
    exact ⟨h.1, h2.1, h2.2.1⟩

/-- C7 witness: a concrete fetch of a body with no calendars clears a
previously nonempty store and succeeds. -/
theorem c7_witness :
    ((⟨"u", "", "", false, 60, [evOld], 0, "h", 0⟩ : Cache).URL ≠ "" ∧
      contOK (⟨"u", "", "", false, 60, [evOld], 0, "h", 0⟩ : Cache).lastModified none = true) ∧
    (Cache.Get ⟨"u", "", "", false, 60, [evOld], 0, "h", 0⟩ (fun _ => true) ("UTC")
        ⟨1000, true, some none, some ⟨"h2", Decoded.eof⟩⟩).cache.events = [] ∧
    (Cache.Get ⟨"u", "", "", false, 60, [evOld], 0, "h", 0⟩ (fun _ => true) ("UTC")
        ⟨1000, true, some none, some ⟨"h2", Decoded.eof⟩⟩).events = [] ∧
    (Cache.Get ⟨"u", "", "", false, 60, [evOld], 0, "h", 0⟩ (fun _ => true) ("UTC")
        ⟨1000, true, some none, some ⟨"h2", Decoded.eof⟩⟩).error = none :=
  ⟨⟨by decide, by decide⟩,
    c7_zero_entries ⟨"u", "", "", false, 60, [evOld], 0, "h", 0⟩ (fun _ => true) ("UTC")
      ⟨1000, true, some none, some ⟨"h2", Decoded.eof⟩⟩ none ⟨"h2", Decoded.eof⟩
      (by decide) (by decide) (by decide) (by rfl) (by decide) (by rfl) (Or.inl (by rfl))⟩

/-- C9: when the body has no calendars (`io.EOF`), the call returns before
the fingerprint step — the stored fingerprint and freshness stamp keep
their previous values even though the empty body's fingerprint differs
from the stored one and no freshness header was present. -/
theorem c9_eof_skips_fingerprint (cache : Cache) (zoneOK : String → Bool) (d : String)
    (env : Env) (body : Body)
    (hurl : cache.URL ≠ "")
    (hgate : (if cache.Interval < 30 then (120 : Int) else cache.Interval) ≤
      env.now - cache.lastChecked)
    (hup : env.urlParses = true)
    (hhead : env.headResult = some none)
    (hget : env.getResult = some body)
    (hdec : body.decoded = Decoded.eof)
    (_hdiff : body.hashSum ≠ cache.lastHashSum) :
    (Cache.Get cache zoneOK d env).cache.lastHashSum = cache.lastHashSum ∧
    (Cache.Get cache zoneOK d env).cache.lastModified = cache.lastModified ∧
    (Cache.Get cache zoneOK d env).lastModified = cache.lastModified := by
  rw [Get_eq_afterProbe cache zoneOK d env none hurl hgate hup hhead rfl]
  have h := afterProbe_eof
    { cache with
        Interval := if cache.Interval < 30 then 120 else cache.Interval
        lastChecked := env.now
        lastModified := (none : Option Int).getD cache.lastModified }
    zoneOK d env (none : Option Int).isSome body hget hdec
  exact ⟨h.2.2.2.2.2, h.2.2.2.2.1, h.2.2.2.1⟩

/-- C9 witness: a concrete EOF body with a differing fingerprint and no
freshness header leaves both the fingerprint and the stamp untouched. -/
theorem c9_witness :
    ((⟨"h2", Decoded.eof⟩ : Body).hashSum ≠
      (⟨"u", "", "", false, 60, [evOld], 0, "h", 7⟩ : Cache).lastHashSum) ∧
    (Cache.Get ⟨"u", "", "", false, 60, [evOld], 0, "h", 7⟩ (fun _ => true) ("UTC")
        ⟨1000, true, some none, some ⟨"h2", Decoded.eof⟩⟩).cache.lastHashSum = "h" ∧
    (Cache.Get ⟨"u", "", "", false, 60, [evOld], 0, "h", 7⟩ (fun _ => true) ("UTC")
        ⟨1000, true, some none, some ⟨"h2", Decoded.eof⟩⟩).cache.lastModified = 7 :=
  ⟨by decide, by
    have h := c9_eof_skips_fingerprint ⟨"u", "", "", false, 60, [evOld], 0, "h", 7⟩
      (fun _ => true) ("UTC") ⟨1000, true, some none, some ⟨"h2", Decoded.eof⟩⟩
      ⟨"h2", Decoded.eof⟩ (by decide) (by decide) (by decide) (by rfl) (by rfl) (by rfl)
      (by decide)
    exact ⟨h.1, h.2.1⟩⟩

/-- C3: on a full fetch that decodes to at least one entry, the new
fingerprint always becomes the stored fingerprint; the freshness stamp is
compared against it only when the probe's indicator was absent — set to
the current time when the fingerprints differ, left untouched when they
match — and when the indicator was present its parsed value is the stored
stamp regardless of the fingerprint. -/
theorem c3_fingerprint_update (cache : Cache) (zoneOK : String → Bool) (d : String)
    (env : Env) (lm : Option Int) (body : Body) (entries : List Entry)
    (hurl : cache.URL ≠ "")
    (hgate : (if cache.Interval < 30 then (120 : Int) else cache.Interval) ≤
      env.now - cache.lastChecked)
    (hup : env.urlParses = true)
    (hhead : env.headResult = some lm)
    (hcont : contOK cache.lastModified lm = true)
    (hget : env.getResult = some body)
    (hdec : body.decoded = Decoded.cal entries)
    (_hne : entries ≠ []) :
    (Cache.Get cache zoneOK d env).cache.lastHashSum = body.hashSum ∧
    (lm = none → body.hashSum ≠ cache.lastHashSum →
      (Cache.Get cache zoneOK d env).cache.lastModified = env.now) ∧
    (lm = none → body.hashSum = cache.lastHashSum →
      (Cache.Get cache zoneOK d env).cache.lastModified = cache.lastModified) ∧
    (∀ t, lm = some t → (Cache.Get cache zoneOK d env).cache.lastModified = t) := by
  rw [Get_eq_afterProbe cache zoneOK d env lm hurl hgate hup hhead hcont]
  have h := afterProbe_cal
    { cache with
        Interval := if cache.Interval < 30 then 120 else cache.Interval
        lastChecked := env.now
        lastModified := lm.getD cache.lastModified }
    zoneOK d env lm.isSome body entries hget hdec
  refine ⟨h.2.1, ?_, ?_, ?_⟩
  · rintro rfl hdiff
    rw [h.2.2.1]
    simp [hdiff]
  · rintro rfl hsame
    rw [h.2.2.1]
    simp [hsame]
  · rintro t rfl
    rw [h.2.2.1]
    simp

/-- C3 witness: with no freshness header and a changed fingerprint, the
stamp becomes the current time and the fingerprint is stored. -/
theorem c3_witness :
    (contOK (⟨"u", "", "", false, 60, [], 0, "h", 7⟩ : Cache).lastModified none = true ∧
      ([entryOK] : List Entry) ≠ []) ∧
    (Cache.Get ⟨"u", "", "", false, 60, [], 0, "h", 7⟩ (fun _ => true) ("UTC")
        ⟨1000, true, some none, some ⟨"h2", Decoded.cal [entryOK]⟩⟩).cache.lastHashSum = "h2" ∧
    (Cache.Get ⟨"u", "", "", false, 60, [], 0, "h", 7⟩ (fun _ => true) ("UTC")
        ⟨1000, true, some none, some ⟨"h2", Decoded.cal [entryOK]⟩⟩).cache.lastModified = 1000 :=
  ⟨⟨by decide, by simp⟩, by
    have h := c3_fingerprint_update ⟨"u", "", "", false, 60, [], 0, "h", 7⟩ (fun _ => true)
      ("UTC") ⟨1000, true, some none, some ⟨"h2", Decoded.cal [entryOK]⟩⟩ none
      ⟨"h2", Decoded.cal [entryOK]⟩ [entryOK] (by decide) (by decide) (by decide) (by rfl)
      (by decide) (by rfl) (by rfl) (by simp)
    exact ⟨h.1, h.2.1 rfl (by decide)⟩⟩

/-- C1: when some entry's required-property extraction fails, the call
returns the empty sequence (with a zero stamp) alongside the extraction
error, and the store's event sequence is left as the prefix extracted so
far — it was truncated in place before extraction began and is not
restored to the previous good snapshot. -/
theorem c1_extraction_error_truncates (cache : Cache) (zoneOK : String → Bool) (d : String)
    (env : Env) (lm : Option Int) (body : Body) (entries : List Entry) (msg : String)
    (hurl : cache.URL ≠ "")
    (hgate : (if cache.Interval < 30 then (120 : Int) else cache.Interval) ≤
      env.now - cache.lastChecked)
    (hup : env.urlParses = true)
    (hhead : env.headResult = some lm)
    (hcont : contOK cache.lastModified lm = true)
    (hget : env.getResult = some body)
    (hdec : body.decoded = Decoded.cal entries)
    (hfail : (extractLoop zoneOK d [] entries).2 = some msg) :
    (Cache.Get cache zoneOK d env).events = [] ∧
    (Cache.Get cache zoneOK d env).lastModified = 0 ∧
    (Cache.Get cache zoneOK d env).error = some (GetErr.extraction msg) ∧
    (Cache.Get cache zoneOK d env).cache.events = (extractLoop zoneOK d [] entries).1 := by
  rw [Get_eq_afterProbe cache zoneOK d env lm hurl hgate hup hhead hcont]
  have h := afterProbe_cal
    { cache with
        Interval := if cache.Interval < 30 then 120 else cache.Interval
        lastChecked := env.now
        lastModified := lm.getD cache.lastModified }
    zoneOK d env lm.isSome body entries hget hdec
  have h2 := h.2.2.2.2.2 msg hfail
  exact ⟨h2.1, h2.2.1, h2.2.2, h.1⟩

/-- C1 witness: with one good entry followed by one whose UID is missing,
the call returns the empty sequence and the store holds only the
extracted prefix `[evA]`, not the previous snapshot `[evOld]`. -/
theorem c1_witness :
    (extractLoop (fun _ => true) ("UTC") [] [entryOK, entryBad]).2 =
      some ("getting uid: missing") ∧
    (Cache.Get ⟨"u", "", "", false, 60, [evOld], 0, "h", 0⟩ (fun _ => true) ("UTC")
        ⟨1000, true, some none, some ⟨"h2", Decoded.cal [entryOK, entryBad]⟩⟩).events = [] ∧
    (Cache.Get ⟨"u", "", "", false, 60, [evOld], 0, "h", 0⟩ (fun _ => true) ("UTC")
        ⟨1000, true, some none,
          some ⟨"h2", Decoded.cal [entryOK, entryBad]⟩⟩).error =
      some (GetErr.extraction ("getting uid: missing")) ∧
    (Cache.Get ⟨"u", "", "", false, 60, [evOld], 0, "h", 0⟩ (fun _ => true) ("UTC")
        ⟨1000, true, some none,
          some ⟨"h2", Decoded.cal [entryOK, entryBad]⟩⟩).cache.events = [evA] ∧
    [evA] ≠ [evOld] :=
  ⟨by rfl, by
    have h := c1_extraction_error_truncates ⟨"u", "", "", false, 60, [evOld], 0, "h", 0⟩
      (fun _ => true) ("UTC")
      ⟨1000, true, some none, some ⟨"h2", Decoded.cal [entryOK, entryBad]⟩⟩ none
      ⟨"h2", Decoded.cal [entryOK, entryBad]⟩ [entryOK, entryBad] ("getting uid: missing")
      (by decide) (by decide) (by decide) (by rfl) (by decide) (by rfl) (by rfl) (by rfl)
    exact ⟨h.1, h.2.2.1, h.2.2.2, by decide⟩⟩

/-- C8: when a start/end date-time property names a TZID the zone
database cannot resolve, the extraction pipeline (the TZID-rewrite
workaround followed by go-ical's date-time computation, exactly as
`extractEvent` composes them) substitutes the caller-supplied default
zone: the instant is the one parsed in the default zone, not an
unknown-timezone error. -/
theorem c8_tz_fallback (zoneOK : String → Bool) (d : String) (e : Entry) (p : DTProp)
    (tz : String)
    (hstart : e.dtStart = some p) (htz : p.tzid = some tz)
    (hbad : zoneOK tz = false) (hok : zoneOK d = true) :
    eventDateTime zoneOK d (e.dtStart.map (resolveTZ zoneOK d)) = p.parseIn d := by
  simp [hstart, eventDateTime, resolveTZ, propDateTime, htz, hbad, hok]

/-- C8 witness: the concrete entry `e8` names the unresolvable TZID `X`;
its start instant is computed in the default zone `UTC` (value 42), and
the whole entry extracts successfully. -/
theorem c8_witness :
    (e8.dtStart = some p8 ∧ p8.tzid = some ("X") ∧
      (fun s => s == "UTC") ("X") = false ∧ (fun s => s == "UTC") ("UTC") = true) ∧
    eventDateTime (fun s => s == "UTC") ("UTC")
      (e8.dtStart.map (resolveTZ (fun s => s == "UTC") ("UTC"))) = Except.ok 42 ∧
    extractEvent (fun s => s == "UTC") ("UTC") e8 =
      Except.ok ⟨false, 42, 0, "", "a", "", "s", ""⟩ :=
  ⟨⟨by rfl, by rfl, by rfl, by rfl⟩,
    c8_tz_fallback (fun s => s == "UTC") ("UTC") e8 p8 ("X") (by rfl) (by rfl) (by rfl)
      (by rfl),
    by rfl⟩

/-- C2 counterexample: the claim says a failed attempt mutates no field
of the store and returns the previously stored freshness stamp.  At this
concrete input the probe reports `Last-Modified = 5` (newer than the
stored stamp 0) and the full fetch then fails with a transport error:
the call returns stamp 5, not the previous 0, and the store's stamp has
been mutated to 5. -/
theorem c2_counterexample :
    (Cache.Get ⟨"u", "", "", false, 60, [evOld], 0, "h", 0⟩ (fun _ => true) ("UTC")
        ⟨1000, true, some (some 5), none⟩).error = some GetErr.getTransport ∧
    (Cache.Get ⟨"u", "", "", false, 60, [evOld], 0, "h", 0⟩ (fun _ => true) ("UTC")
        ⟨1000, true, some (some 5), none⟩).lastModified ≠
      (⟨"u", "", "", false, 60, [evOld], 0, "h", 0⟩ : Cache).lastModified ∧
    (Cache.Get ⟨"u", "", "", false, 60, [evOld], 0, "h", 0⟩ (fun _ => true) ("UTC")
        ⟨1000, true, some (some 5), none⟩).cache.lastModified ≠
      (⟨"u", "", "", false, 60, [evOld], 0, "h", 0⟩ : Cache).lastModified := by
  decide

/-- The probe fails with a transport error: the whole attempt aborts with
the stored snapshot and the error. -/
theorem Get_headTransport (cache : Cache) (zoneOK : String → Bool) (d : String) (env : Env)
    (hurl : cache.URL ≠ "")
    (hgate : (if cache.Interval < 30 then (120 : Int) else cache.Interval) ≤
      env.now - cache.lastChecked)
    (hup : env.urlParses = true)
    (hh : env.headResult = none) :
    Cache.Get cache zoneOK d env =
      ⟨{ cache with
          Interval := if cache.Interval < 30 then 120 else cache.Interval
          lastChecked := env.now },
        cache.events, cache.lastModified, some GetErr.headTransport, [ReqKind.headReq]⟩ := by
  have hg := not_lt.mpr hgate
  by_cases hI : cache.Interval < 30 <;>
    simp only [hI, ite_true, ite_false] at hg ⊢ <;>
    simp [Cache.Get, hurl, hI, hg, hup, hh]

/-- C2 (amended): a transport error (probe or full fetch) or a decode
error returns the stored event sequence alongside the error, with events
and fingerprint unchanged in the store; `lastChecked` is set to the
attempt time; the returned stamp equals the stored one after the attempt;
and that stamp is the previous one when the probe failed or its header
was absent/unparsable, while a parseable indicator strictly newer than
the previous stamp has already been adopted: it is the stored (hence
returned) stamp. -/
theorem c2_amended_error_snapshot (cache : Cache) (zoneOK : String → Bool) (d : String)
    (env : Env)
    (hurl : cache.URL ≠ "")
    (hgate : (if cache.Interval < 30 then (120 : Int) else cache.Interval) ≤
      env.now - cache.lastChecked)
    (hup : env.urlParses = true)
    (herr : env.headResult = none ∨
      (∃ lm, env.headResult = some lm ∧ contOK cache.lastModified lm = true ∧
        (env.getResult = none ∨
          ∃ b, env.getResult = some b ∧ b.decoded = Decoded.fail))) :
    (∃ er, (Cache.Get cache zoneOK d env).error = some er ∧
      (er = GetErr.headTransport ∨ er = GetErr.getTransport ∨ er = GetErr.decode)) ∧
    (Cache.Get cache zoneOK d env).events = cache.events ∧
    (Cache.Get cache zoneOK d env).cache.events = cache.events ∧
    (Cache.Get cache zoneOK d env).cache.lastHashSum = cache.lastHashSum ∧
    (Cache.Get cache zoneOK d env).cache.lastChecked = env.now ∧
    (Cache.Get cache zoneOK d env).lastModified =
      (Cache.Get cache zoneOK d env).cache.lastModified ∧
    (env.headResult = none →
      (Cache.Get cache zoneOK d env).cache.lastModified = cache.lastModified) ∧
    (env.headResult = some none →
      (Cache.Get cache zoneOK d env).cache.lastModified = cache.lastModified) ∧
    (∀ t, env.headResult = some (some t) → cache.lastModified < t →
      (Cache.Get cache zoneOK d env).cache.lastModified = t) := by
  rcases herr with hh | ⟨lm, hh, hcont, hrest⟩
  · rw [Get_headTransport cache zoneOK d env hurl hgate hup hh]
    refine ⟨⟨GetErr.headTransport, rfl, Or.inl rfl⟩, rfl, rfl, rfl, rfl, rfl,
      fun _ => rfl, ?_, ?_⟩
    · intro h2
      exact Option.noConfusion (hh.symm.trans h2)
    · intro t h2 _hlt
      exact Option.noConfusion (hh.symm.trans h2)
  · rw [Get_eq_afterProbe cache zoneOK d env lm hurl hgate hup hh hcont]
    rcases hrest with hget | ⟨b, hget, hdec⟩
    · rw [afterProbe_transport _ zoneOK d env lm.isSome hget]
      refine ⟨⟨GetErr.getTransport, rfl, Or.inr (Or.inl rfl)⟩, rfl, rfl, rfl, rfl, rfl,
        ?_, ?_, ?_⟩
      · intro h2
        exact Option.noConfusion (hh.symm.trans h2)
      · intro h2
        have h3 := Option.some.inj (hh.symm.trans h2)
        subst h3
        rfl
      · intro t h2 _hlt
        have h3 := Option.some.inj (hh.symm.trans h2)
        subst h3
        rfl
    · rw [afterProbe_decodeFail _ zoneOK d env lm.isSome b hget hdec]
      refine ⟨⟨GetErr.decode, rfl, Or.inr (Or.inr rfl)⟩, rfl, rfl, rfl, rfl, rfl,
        ?_, ?_, ?_⟩
      · intro h2
        exact Option.noConfusion (hh.symm.trans h2)
      · intro h2
        have h3 := Option.some.inj (hh.symm.trans h2)
        subst h3
        rfl
      · intro t h2 _hlt
        have h3 := Option.some.inj (hh.symm.trans h2)
        subst h3
        rfl

/-- C2 (amended) witness: a concrete decode error after a probe carrying
`Last-Modified = 5` (newer than the stored stamp 0) returns the stored
events with the error, stamps `lastChecked`, and has adopted 5 as the
stored and returned stamp. -/
theorem c2_amended_witness :
    ((⟨"u", "", "", false, 60, [evOld], 0, "h", 0⟩ : Cache).URL ≠ "" ∧
      (⟨1000, true, some (some 5), some ⟨"h2", Decoded.fail⟩⟩ : Env).urlParses = true ∧
      (⟨"u", "", "", false, 60, [evOld], 0, "h", 0⟩ : Cache).lastModified < 5) ∧
    (Cache.Get ⟨"u", "", "", false, 60, [evOld], 0, "h", 0⟩ (fun _ => true) ("UTC")
        ⟨1000, true, some (some 5), some ⟨"h2", Decoded.fail⟩⟩).events = [evOld] ∧
    (Cache.Get ⟨"u", "", "", false, 60, [evOld], 0, "h", 0⟩ (fun _ => true) ("UTC")
        ⟨1000, true, some (some 5), some ⟨"h2", Decoded.fail⟩⟩).cache.lastChecked = 1000 ∧
    (Cache.Get ⟨"u", "", "", false, 60, [evOld], 0, "h", 0⟩ (fun _ => true) ("UTC")
        ⟨1000, true, some (some 5), some ⟨"h2", Decoded.fail⟩⟩).cache.lastModified = 5 ∧
    (Cache.Get ⟨"u", "", "", false, 60, [evOld], 0, "h", 0⟩ (fun _ => true) ("UTC")
        ⟨1000, true, some (some 5), some ⟨"h2", Decoded.fail⟩⟩).lastModified = 5 ∧
    (∃ er, (Cache.Get ⟨"u", "", "", false, 60, [evOld], 0, "h", 0⟩ (fun _ => true) ("UTC")
        ⟨1000, true, some (some 5), some ⟨"h2", Decoded.fail⟩⟩).error = some er ∧
      (er = GetErr.headTransport ∨ er = GetErr.getTransport ∨ er = GetErr.decode)) :=
  ⟨⟨by decide, by decide, by decide⟩, by
    have h := c2_amended_error_snapshot ⟨"u", "", "", false, 60, [evOld], 0, "h", 0⟩
      (fun _ => true) ("UTC") ⟨1000, true, some (some 5), some ⟨"h2", Decoded.fail⟩⟩
      (by decide) (by decide) (by decide)
      (Or.inr ⟨some 5, by rfl, by decide, Or.inr ⟨⟨"h2", Decoded.fail⟩, by rfl, by rfl⟩⟩)
    have h9 := h.2.2.2.2.2.2.2.2 5 (by rfl) (by decide)
    exact ⟨h.2.1, h.2.2.2.2.1, h9, h.2.2.2.2.2.1.trans h9, h.1⟩⟩

end ICalCache
